import Mathlib

/-!
Shallow embedding of the resilient-execution core of
`src/api/resilient_system.py`: the `CircuitBreaker` state machine, the
`RetryPolicy` retry loop with exponential backoff, the `HealthCheck`
bookkeeping and the `ResilientSystem` orchestrator.

Modelling conventions:
* Wall-clock instants and durations (`datetime.now()`, `total_seconds()`,
  delays) are rationals; each call receives its `now` explicitly.
* A wrapped operation is modelled by the outcome of each of its invocations
  (`Except ε α`), indexed by invocation number; whether the operation is
  actually invoked is recorded by an explicit `invoked` flag / counter, so
  "the operation was never invoked" is a provable statement.
* Python exceptions are values of an error type.  The breaker synthesizes a
  fresh `Exception("Circuit breaker OPEN")` on rejection and re-raises the
  operation's exception otherwise; the two raise sites are the two
  constructors of `Err ε`.  What a Python caller catching `Exception` can
  observe of such a value is its class (always `Exception`) and its message
  (`str(e)`), modelled by `Err.msg`.
* `random.random()` results are inputs (`jit`), one rational in `[0,1)` per
  attempt, so backoff delays are deterministic functions of those inputs.
-/

namespace Resilient

/-- States of the circuit breaker (`CircuitState` in the source). -/
inductive CircuitState : Type
  | Closed
  | Open
  | HalfOpen
deriving DecidableEq, Repr

/-- The mutable fields and configuration of a `CircuitBreaker` instance. -/
structure CircuitBreaker : Type where
  failure_threshold : Nat
  recovery_timeout : ℚ
  failure_count : Nat
  last_failure_time : Option ℚ
  state : CircuitState
deriving DecidableEq, Repr

/-- Constructor `CircuitBreaker.__init__`: zero failures, no failure time, Closed. -/
def CircuitBreaker.mkInit (threshold : Nat) (timeout : ℚ) : CircuitBreaker :=
  ⟨threshold, timeout, 0, none, .Closed⟩

/-- Errors surfaced by `CircuitBreaker.call`: the breaker-synthesized
`Exception("Circuit breaker OPEN")`, or the re-raised operation error. -/
inductive Err (ε : Type) : Type
  | circuitOpen
  | op (e : ε)
deriving DecidableEq, Repr

/-- What a Python caller catching `Exception` observes: `str(e)`. -/
def Err.msg (estr : ε → String) : Err ε → String
  | .circuitOpen => "Circuit breaker OPEN"
  | .op e => estr e

/-- Predicate `CircuitBreaker._should_attempt_reset`: `True` when no failure has been
recorded, else when `now - last_failure_time >= recovery_timeout`. -/
def CircuitBreaker.should_attempt_reset (cb : CircuitBreaker) (now : ℚ) : Bool :=
  match cb.last_failure_time with
  | none => true
  | some t => decide (cb.recovery_timeout ≤ now - t)

/-- Transition `CircuitBreaker._on_success`: reset the failure count; close from
HalfOpen. -/
def CircuitBreaker.on_success (cb : CircuitBreaker) : CircuitBreaker :=
  { cb with failure_count := 0,
            state := if cb.state = .HalfOpen then .Closed else cb.state }

/-- Transition `CircuitBreaker._on_failure`: bump the count, stamp the failure time,
open once the threshold is reached. -/
def CircuitBreaker.on_failure (cb : CircuitBreaker) (now : ℚ) : CircuitBreaker :=
  { cb with failure_count := cb.failure_count + 1,
            last_failure_time := some now,
            state := if cb.failure_threshold ≤ cb.failure_count + 1 then .Open
                     else cb.state }

/-- The gate at the top of `CircuitBreaker.call`: `none` means the call is
rejected (`raise Exception("Circuit breaker OPEN")`); `some cb1` is the
breaker state with which the operation is invoked. -/
def CircuitBreaker.gate (cb : CircuitBreaker) (now : ℚ) : Option CircuitBreaker :=
  if cb.state = .Open then
    if cb.should_attempt_reset now then some { cb with state := .HalfOpen }
    else none
  else some cb

instance {ε α : Type} [DecidableEq ε] [DecidableEq α] : DecidableEq (Except ε α) :=
  fun a b =>
    match a, b with
    | .ok x, .ok y =>
      if h : x = y then .isTrue (by rw [h])
      else .isFalse (by intro hc; cases hc; exact h rfl)
    | .error x, .error y =>
      if h : x = y then .isTrue (by rw [h])
      else .isFalse (by intro hc; cases hc; exact h rfl)
    | .ok _, .error _ => .isFalse (by intro hc; cases hc)
    | .error _, .ok _ => .isFalse (by intro hc; cases hc)

/-- Outcome of one `CircuitBreaker.call`: the updated breaker, whether the
wrapped operation was invoked, and the returned value or raised error. -/
structure CallResult (ε α : Type) : Type where
  breaker : CircuitBreaker
  invoked : Bool
  result : Except (Err ε) α
deriving DecidableEq, Repr

/-- Method `CircuitBreaker.call`, with `o` the outcome the wrapped operation would
produce if invoked now. -/
def CircuitBreaker.call (cb : CircuitBreaker) (now : ℚ) (o : Except ε α) :
    CallResult ε α :=
  match cb.gate now with
  | none => ⟨cb, false, .error .circuitOpen⟩
  | some cb1 =>
    match o with
    | .ok v => ⟨cb1.on_success, true, .ok v⟩
    | .error e => ⟨cb1.on_failure now, true, .error (.op e)⟩

/-- Run a breaker through a sequence of calls, each given by its time and
the operation outcome it would see. -/
def CircuitBreaker.run (cb : CircuitBreaker) :
    List (ℚ × Except ε α) → CircuitBreaker
  | [] => cb
  | (t, o) :: evs => ((cb.call t o).breaker).run evs

/-- Configuration of a `RetryPolicy`.  `max_attempts` is a Python `int`,
hence an integer that may be non-positive. -/
structure RetryPolicy : Type where
  max_attempts : Int
  base_delay : ℚ
  max_delay : ℚ
deriving DecidableEq, Repr

/-- Backoff `RetryPolicy._calculate_backoff` for attempt number `attempt`, where
`r` is the value returned by `random.random()` (so `r ∈ [0, 1)` and the
jitter multiplier is `0.5 + r`):
`min(base_delay * 2^(attempt-1), max_delay) * (0.5 + r)`. -/
def RetryPolicy.calculate_backoff (p : RetryPolicy) (attempt : Nat) (r : ℚ) : ℚ :=
  min (p.base_delay * 2 ^ (attempt - 1)) p.max_delay * (1/2 + r)

/-- Error raised at the end of `RetryPolicy.execute_with_retry`:
`raise last_exception` re-raises the recorded exception, or — when
`last_exception` is still `None` because the loop body never ran — raises
the `TypeError` that Python produces for `raise None`. -/
inductive RetryErr (ε : Type) : Type
  | opErr (e : ε)
  | raisedNone
deriving DecidableEq, Repr

/-- Message `str(e)` for the error surfaced by the retry loop; `raise None` yields
`TypeError("exceptions must derive from BaseException")`. -/
def RetryErr.msg (estr : ε → String) : RetryErr ε → String
  | .opErr e => estr e
  | .raisedNone => "exceptions must derive from BaseException"

/-- What the `raise last_exception` line raises, given `last_exception`. -/
def raiseLast {ε : Type} : Option ε → RetryErr ε
  | some e => .opErr e
  | none => .raisedNone

/-- Result of running the retry loop over a stateful operation with state
type `σ`: final outcome, number of operation invocations, the sequence of
delays slept between attempts, and the final operation state. -/
structure RetryRun (σ ε α : Type) : Type where
  result : Except (RetryErr ε) α
  invocations : Nat
  sleeps : List ℚ
  final : σ

/-- The `for attempt in range(1, max_attempts + 1)` loop of
`RetryPolicy.execute_with_retry`, over a stateful operation
`op : Nat → σ → σ × Except ε α` (attempt number and state in, new state and
outcome out) and a jitter stream `jit`.  `a` is the current attempt number
and `fuel` the number of attempts still available; a delay is slept only
when the failed attempt is not the last one (`attempt < max_attempts`). -/
def RetryPolicy.go (p : RetryPolicy) (op : Nat → σ → σ × Except ε α)
    (jit : Nat → ℚ) : Nat → Nat → Option ε → σ → RetryRun σ ε α
  | _, 0, last, s => ⟨.error (raiseLast last), 0, [], s⟩
  | a, fuel + 1, _, s =>
    match op a s with
    | (s1, .ok v) => ⟨.ok v, 1, [], s1⟩
    | (s1, .error e) =>
      let rest := p.go op jit (a + 1) fuel (some e) s1
      ⟨rest.result, rest.invocations + 1,
        if fuel = 0 then rest.sleeps
        else p.calculate_backoff a (jit a) :: rest.sleeps,
        rest.final⟩

/-- Method `RetryPolicy.execute_with_retry`: attempts are numbered from 1; a
non-positive `max_attempts` gives `range(1, max_attempts + 1) = []`. -/
def RetryPolicy.execute_with_retry (p : RetryPolicy)
    (op : Nat → σ → σ × Except ε α) (jit : Nat → ℚ) (s : σ) : RetryRun σ ε α :=
  p.go op jit 1 p.max_attempts.toNat none s

/-- The fields of a `HealthCheck` instance; `metrics` is modelled as an
association list. -/
structure HealthCheck : Type where
  check_interval : ℚ
  last_check : Option ℚ
  status : String
  metrics : List (String × String)
deriving DecidableEq, Repr

/-- Constructor `HealthCheck.__init__`. -/
def HealthCheck.mkInit (interval : ℚ) : HealthCheck :=
  ⟨interval, none, "HEALTHY", []⟩

/-- Method `HealthCheck.perform_health_check`: the default probe always succeeds,
setting the status and the check time and returning `True`. -/
def HealthCheck.perform_health_check (h : HealthCheck) (now : ℚ) :
    HealthCheck × Bool :=
  ({ h with status := "HEALTHY", last_check := some now }, true)

/-- Method `HealthCheck.auto_heal`: clear `metrics`, re-run the health check and
return its result. -/
def HealthCheck.auto_heal (h : HealthCheck) (now : ℚ) : HealthCheck × Bool :=
  HealthCheck.perform_health_check { h with metrics := [] } now

/-- One entry of the failure history: `{"timestamp": …, "error": str(e)}`. -/
structure FailureRecord : Type where
  timestamp : ℚ
  error : String
deriving DecidableEq, Repr

/-- The state owned by a `ResilientSystem` instance. -/
structure ResilientSystem : Type where
  circuit_breaker : CircuitBreaker
  retry_policy : RetryPolicy
  health_check : HealthCheck
  failure_history : List FailureRecord
deriving DecidableEq, Repr

/-- Constructor `ResilientSystem.__init__`: default breaker `(5, 60)`, default retry
policy `(3, 0.1, 10.0)`, default health check `(30)`, empty history. -/
def ResilientSystem.mkInit : ResilientSystem :=
  ⟨CircuitBreaker.mkInit 5 60, ⟨3, 1/10, 10⟩, HealthCheck.mkInit 30, []⟩

/-- The closure `lambda: self.circuit_breaker.call(func, ...)` passed to the
retry loop: its state is the breaker together with the count of invocations
of the underlying operation; `uop k` is the outcome of the underlying
operation's `(k+1)`-th invocation and `times a` the wall-clock time of
attempt `a`. -/
def breaker_op (uop : Nat → Except ε α) (times : Nat → ℚ) :
    Nat → CircuitBreaker × Nat → (CircuitBreaker × Nat) × Except (Err ε) α :=
  fun a s =>
    let r := s.1.call (times a) (uop s.2)
    ((r.breaker, s.2 + (if r.invoked then 1 else 0)), r.result)

/-- Result of one `ResilientSystem.execute_with_resilience` call. -/
structure ResilienceRun (ε α : Type) : Type where
  system : ResilientSystem
  result : Except (RetryErr (Err ε)) α
  attempts : Nat
  op_invocations : Nat

/-- Method `ResilientSystem.execute_with_resilience`: drive the breaker-wrapped
closure through the retry loop; on terminal failure append one
`FailureRecord` with the error's message, run the health check and — only
if it reports unhealthy — auto-heal, then re-raise the terminal error
unchanged.  `estr` is `str` on operation errors and `tEnd` the time of the
failure bookkeeping. -/
def ResilientSystem.execute_with_resilience (rs : ResilientSystem)
    (uop : Nat → Except ε α) (estr : ε → String) (jit : Nat → ℚ)
    (times : Nat → ℚ) (tEnd : ℚ) : ResilienceRun ε α :=
  let run := rs.retry_policy.execute_with_retry (breaker_op uop times) jit
    (rs.circuit_breaker, 0)
  match run.result with
  | .ok v =>
    ⟨{ rs with circuit_breaker := run.final.1 }, .ok v,
      run.invocations, run.final.2⟩
  | .error err =>
    let hist := rs.failure_history ++ [⟨tEnd, err.msg (Err.msg estr)⟩]
    let probe := rs.health_check.perform_health_check tEnd
    let hc := if probe.2 then probe.1 else (probe.1.auto_heal tEnd).1
    let rs1 : ResilientSystem :=
      { rs with
          circuit_breaker := run.final.1
          failure_history := hist
          health_check := hc }
    ⟨rs1, .error err, run.invocations, run.final.2⟩

/-- Method `ResilientSystem.get_system_status`: read-only snapshot. -/
def ResilientSystem.get_system_status (rs : ResilientSystem) :
    String × String × Nat :=
  (match rs.circuit_breaker.state with
    | .Closed => "CLOSED"
    | .Open => "OPEN"
    | .HalfOpen => "HALF_OPEN",
   rs.health_check.status, rs.failure_history.length)

/-! ## Helper lemmas about the circuit breaker -/

theorem CircuitBreaker.gate_some (cb : CircuitBreaker) (now : ℚ)
    (cb1 : CircuitBreaker) (h : cb.gate now = some cb1) :
    cb1.state ≠ .Open ∧ cb1.failure_count = cb.failure_count ∧
      cb1.failure_threshold = cb.failure_threshold ∧
      cb1.recovery_timeout = cb.recovery_timeout ∧
      cb1.last_failure_time = cb.last_failure_time := by
  unfold CircuitBreaker.gate at h
  by_cases hs : cb.state = .Open
  · simp only [hs, if_pos, if_true] at h
    by_cases hr : cb.should_attempt_reset now = true
    · simp only [hr, if_true, Option.some.injEq] at h
      subst h
      exact ⟨by simp, rfl, rfl, rfl, rfl⟩
    · simp [hr] at h
  · simp only [hs, if_false, Option.some.injEq, if_neg] at h
    subst h
    exact ⟨hs, rfl, rfl, rfl, rfl⟩

theorem CircuitBreaker.call_rejects (cb : CircuitBreaker) (now t0 : ℚ)
    (o : Except ε α) (hs : cb.state = .Open) (ht : cb.last_failure_time = some t0)
    (he : now - t0 < cb.recovery_timeout) :
    cb.call now o = ⟨cb, false, .error .circuitOpen⟩ := by
  have hr : cb.should_attempt_reset now = false := by
    unfold CircuitBreaker.should_attempt_reset
    rw [ht]
    simpa using not_le.mpr he
  have hg : cb.gate now = none := by
    unfold CircuitBreaker.gate
    simp [hs, hr]
  unfold CircuitBreaker.call
  rw [hg]

theorem CircuitBreaker.call_proceeds (cb : CircuitBreaker) (now t0 : ℚ)
    (hs : cb.state = .Open) (ht : cb.last_failure_time = some t0)
    (he : cb.recovery_timeout ≤ now - t0) :
    cb.gate now = some { cb with state := .HalfOpen } := by
  have hr : cb.should_attempt_reset now = true := by
    unfold CircuitBreaker.should_attempt_reset
    rw [ht]
    simpa using he
  unfold CircuitBreaker.gate
  simp [hs, hr]

/-- The single invariant needed about reachable breaker states: an open
breaker has accumulated at least `failure_threshold` failures. -/
def CircuitBreaker.Inv (cb : CircuitBreaker) : Prop :=
  cb.state = .Open → cb.failure_threshold ≤ cb.failure_count

theorem CircuitBreaker.call_preserves_Inv (cb : CircuitBreaker) (now : ℚ)
    (o : Except ε α) (h : cb.Inv) : ((cb.call now o).breaker).Inv := by
  unfold CircuitBreaker.call
  cases hg : cb.gate now with
  | none => exact h
  | some cb1 =>
    obtain ⟨h1, h2, h3, _, _⟩ := CircuitBreaker.gate_some cb now cb1 hg
    cases o with
    | ok v =>
      intro hopen
      exfalso
      unfold CircuitBreaker.on_success at hopen
      by_cases hh : cb1.state = .HalfOpen
      · simp [hh] at hopen
      · simp only [hh, if_neg, if_false] at hopen
        exact h1 hopen
    | error e =>
      intro hopen
      unfold CircuitBreaker.on_failure at hopen ⊢
      simp only at hopen ⊢
      by_cases hth : cb1.failure_threshold ≤ cb1.failure_count + 1
      · simpa [h3, h2] using hth
      · simp only [hth, if_neg, if_false] at hopen
        exact absurd hopen h1

theorem CircuitBreaker.run_preserves_Inv (evs : List (ℚ × Except ε α)) :
    ∀ cb : CircuitBreaker, cb.Inv → (cb.run evs).Inv := by
  induction evs with
  | nil => exact fun cb h => h
  | cons ev evs ih =>
    intro cb h
    obtain ⟨t, o⟩ := ev
    exact ih _ (CircuitBreaker.call_preserves_Inv cb t o h)

theorem CircuitBreaker.run_Inv (thr : Nat) (tmo : ℚ)
    (evs : List (ℚ × Except ε α)) : ((CircuitBreaker.mkInit thr tmo).run evs).Inv := by
  apply CircuitBreaker.run_preserves_Inv
  intro h
  cases h

/-! ## Claim theorems -/

/-- Claim C1: while a breaker is Open and the elapsed time since
`last_failure_time` is strictly below `recovery_timeout`, `call` fails with
the circuit-open error, the wrapped operation is not invoked (`invoked`
stays `false`, so any invocation counter is unchanged), and the breaker
state is untouched. -/
theorem circuit_open_rejects_without_invoking (cb : CircuitBreaker)
    (now t0 : ℚ) (o : Except ε α) (hs : cb.state = .Open)
    (ht : cb.last_failure_time = some t0)
    (he : now - t0 < cb.recovery_timeout) :
    cb.call now o = ⟨cb, false, .error .circuitOpen⟩ :=
  CircuitBreaker.call_rejects cb now t0 o hs ht he

/-- Witness for C1: a concrete open breaker (threshold 1, timeout 10, one
failure at time 0) rejects a call at time 5 without invoking the
operation. -/
theorem circuit_open_rejects_without_invoking_witness :
    (CircuitBreaker.mk 1 10 1 (some 0) .Open).call 5
        (Except.error "boom" : Except String Nat)
      = ⟨CircuitBreaker.mk 1 10 1 (some 0) .Open, false, .error .circuitOpen⟩ :=
  circuit_open_rejects_without_invoking (CircuitBreaker.mk 1 10 1 (some 0) .Open)
    5 0 (Except.error "boom") rfl rfl (by norm_num)

/-- Claim C3: whenever the wrapped operation is invoked and fails,
`failure_count` goes up by exactly 1, `last_failure_time` becomes the
current time, the operation's original error is propagated unchanged, and
the breaker ends Open exactly when the new count reaches
`failure_threshold` — whatever non-Open state (Closed or HalfOpen) the
operation was invoked from. -/
theorem failure_increments_count_and_opens_at_threshold (cb : CircuitBreaker)
    (now : ℚ) (e : ε)
    (hinv : (cb.call now (Except.error e : Except ε α)).invoked = true) :
    (cb.call now (Except.error e : Except ε α)).breaker.failure_count
        = cb.failure_count + 1
    ∧ (cb.call now (Except.error e : Except ε α)).breaker.last_failure_time
        = some now
    ∧ (cb.call now (Except.error e : Except ε α)).result = .error (.op e)
    ∧ ((cb.call now (Except.error e : Except ε α)).breaker.state = .Open
        ↔ cb.failure_threshold ≤ cb.failure_count + 1) := by
  cases hg : cb.gate now with
  | none =>
    exfalso
    unfold CircuitBreaker.call at hinv
    rw [hg] at hinv
    cases hinv
  | some cb1 =>
    obtain ⟨h1, h2, h3, _, _⟩ := CircuitBreaker.gate_some cb now cb1 hg
    unfold CircuitBreaker.call
    rw [hg]
    unfold CircuitBreaker.on_failure
    refine ⟨by simp [h2], rfl, rfl, ?_⟩
    simp only
    rw [h2, h3]
    by_cases hth : cb.failure_threshold ≤ cb.failure_count + 1
    · rw [if_pos hth]
      exact iff_of_true rfl hth
    · rw [if_neg hth]
      exact iff_of_false h1 hth

/-- Witness for C3: a closed breaker with threshold 1 and no prior
failures; a failing call at time 4 increments the count to 1, stamps the
time, re-raises the error and opens the breaker. -/
theorem failure_increments_count_and_opens_at_threshold_witness :
    ((CircuitBreaker.mk 1 10 0 none .Closed).call 4
        (Except.error "boom" : Except String Nat)).breaker.failure_count = 0 + 1
    ∧ ((CircuitBreaker.mk 1 10 0 none .Closed).call 4
        (Except.error "boom" : Except String Nat)).breaker.last_failure_time
        = some 4
    ∧ ((CircuitBreaker.mk 1 10 0 none .Closed).call 4
        (Except.error "boom" : Except String Nat)).result = .error (.op "boom")
    ∧ (((CircuitBreaker.mk 1 10 0 none .Closed).call 4
        (Except.error "boom" : Except String Nat)).breaker.state = .Open
        ↔ (1 : Nat) ≤ 0 + 1) :=
  failure_increments_count_and_opens_at_threshold
    (CircuitBreaker.mk 1 10 0 none .Closed) 4 "boom" rfl

/-- Claim C4: a reachable Open breaker, called once the elapsed time since
`last_failure_time` reaches `recovery_timeout`, passes the gate in state
HalfOpen and invokes the operation; success closes the breaker and zeroes
the count, returning the result unchanged; failure re-opens it with the
count incremented, re-raising the error. -/
theorem open_breaker_recovers_after_timeout (thr : Nat) (tmo : ℚ)
    (evs : List (ℚ × Except ε α)) (now t0 : ℚ) (cb : CircuitBreaker)
    (hcb : (CircuitBreaker.mkInit thr tmo).run evs = cb)
    (hs : cb.state = .Open) (ht : cb.last_failure_time = some t0)
    (he : cb.recovery_timeout ≤ now - t0) :
    cb.gate now = some { cb with state := .HalfOpen }
    ∧ (∀ v : α, cb.call now (Except.ok v : Except ε α)
        = ⟨{ cb with failure_count := 0, state := .Closed }, true, .ok v⟩)
    ∧ (∀ e : ε, cb.call now (Except.error e : Except ε α)
        = ⟨{ cb with
               failure_count := cb.failure_count + 1
               last_failure_time := some now
               state := .Open }, true,
            .error (.op e)⟩) := by
  have hgate := CircuitBreaker.call_proceeds cb now t0 hs ht he
  have hInv : cb.failure_threshold ≤ cb.failure_count := by
    have h := CircuitBreaker.run_Inv thr tmo evs
    rw [hcb] at h
    exact h hs
  refine ⟨hgate, ?_, ?_⟩
  · intro v
    unfold CircuitBreaker.call
    rw [hgate]
    unfold CircuitBreaker.on_success
    simp
  · intro e
    unfold CircuitBreaker.call
    rw [hgate]
    unfold CircuitBreaker.on_failure
    simp only
    have hth : cb.failure_threshold ≤ cb.failure_count + 1 :=
      le_trans hInv (Nat.le_succ _)
    simp [hth]

/-- Witness for C4: threshold 1, timeout 1, one failure at time 0 opens the
breaker; a call at time 2 passes in HalfOpen, a success closes it with
count 0, a failure re-opens it with count 2. -/
theorem open_breaker_recovers_after_timeout_witness :
    (CircuitBreaker.mk 1 1 1 (some 0) .Open).gate 2
        = some (CircuitBreaker.mk 1 1 1 (some 0) .HalfOpen)
    ∧ (CircuitBreaker.mk 1 1 1 (some 0) .Open).call 2
        (Except.ok 7 : Except String Nat)
        = ⟨CircuitBreaker.mk 1 1 0 (some 0) .Closed, true, .ok 7⟩
    ∧ (CircuitBreaker.mk 1 1 1 (some 0) .Open).call 2
        (Except.error "d" : Except String Nat)
        = ⟨CircuitBreaker.mk 1 1 2 (some 2) .Open, true, .error (.op "d")⟩ := by
  have h := open_breaker_recovers_after_timeout 1 1
    [((0 : ℚ), (Except.error "e" : Except String Nat))] 2 0
    (CircuitBreaker.mk 1 1 1 (some 0) .Open) (by decide) rfl rfl (by norm_num)
  exact ⟨h.1, h.2.1 7, h.2.2 "d"⟩

theorem CircuitBreaker.count_reset_only_on_success (cb : CircuitBreaker)
    (now : ℚ) (o : Except ε α)
    (h0 : (cb.call now o).breaker.failure_count = 0)
    (hne : cb.failure_count ≠ 0) :
    (cb.call now o).invoked = true ∧ ∃ v, o = .ok v := by
  cases hg : cb.gate now with
  | none =>
    exfalso
    unfold CircuitBreaker.call at h0
    rw [hg] at h0
    exact hne h0
  | some cb1 =>
    cases o with
    | ok v =>
      unfold CircuitBreaker.call
      rw [hg]
      exact ⟨rfl, v, rfl⟩
    | error e =>
      exfalso
      unfold CircuitBreaker.call at h0
      rw [hg] at h0
      unfold CircuitBreaker.on_failure at h0
      simp at h0

theorem CircuitBreaker.call_invoked_of_gate_some (cb : CircuitBreaker)
    (now : ℚ) (cb1 : CircuitBreaker) (hg : cb.gate now = some cb1)
    (o : Except ε α) : (cb.call now o).invoked = true := by
  unfold CircuitBreaker.call
  rw [hg]
  cases o <;> rfl

/-- Counterexample for C5: with threshold 1 and recovery timeout 1, one
failure at time 0 opens the breaker; at time 5 the elapsed time (5) is not
strictly below the recovery timeout (1), yet the reachable state still has
`state = Open` — the state field only leaves Open at the next call, so
"state == Open only while elapsed < recoveryTimeout" fails as a state
invariant. -/
theorem open_state_outlives_recovery_timeout :
    ((CircuitBreaker.mkInit 1 1).run
        [((0 : ℚ), (Except.error "boom" : Except String Nat))]).state = .Open
    ∧ ((CircuitBreaker.mkInit 1 1).run
        [((0 : ℚ), (Except.error "boom" : Except String Nat))]).last_failure_time
        = some 0
    ∧ ¬((5 : ℚ) - 0 < ((CircuitBreaker.mkInit 1 1).run
        [((0 : ℚ), (Except.error "boom" : Except String Nat))]).recovery_timeout) := by
  refine ⟨rfl, rfl, ?_⟩
  show ¬((5 : ℚ) - 0 < 1)
  norm_num

/-- Claim C5 (amended): for every reachable breaker state, `failure_count`
is reset to 0 only by a successful (invoked) call; whenever `state = Open`,
`failure_count ≥ failure_threshold`; and a call arriving once the elapsed
time since `last_failure_time` reaches `recovery_timeout` does invoke the
operation (it is not rejected by the Open gate).  The state *field*,
however, may remain Open arbitrarily long after the timeout has elapsed,
until the next call. -/
theorem breaker_state_invariants (thr : Nat) (tmo : ℚ)
    (evs : List (ℚ × Except ε α)) (cb : CircuitBreaker)
    (hcb : (CircuitBreaker.mkInit thr tmo).run evs = cb) :
    (cb.state = .Open → cb.failure_threshold ≤ cb.failure_count)
    ∧ (∀ (now : ℚ) (o : Except ε α),
        (cb.call now o).breaker.failure_count = 0 → cb.failure_count ≠ 0 →
        (cb.call now o).invoked = true ∧ ∃ v, o = .ok v)
    ∧ (∀ (now t0 : ℚ) (o : Except ε α),
        cb.state = .Open → cb.last_failure_time = some t0 →
        cb.recovery_timeout ≤ now - t0 → (cb.call now o).invoked = true) := by
  refine ⟨?_, ?_, ?_⟩
  · intro hs
    have h := CircuitBreaker.run_Inv thr tmo evs
    rw [hcb] at h
    exact h hs
  · intro now o h0 hne
    exact CircuitBreaker.count_reset_only_on_success cb now o h0 hne
  · intro now t0 o hs ht he
    exact CircuitBreaker.call_invoked_of_gate_some cb now _
      (CircuitBreaker.call_proceeds cb now t0 hs ht he) o

/-- Witness for C5 (amended), at the reachable breaker of the
counterexample trace: its threshold bound holds, a successful call resets
the count, and a call at time 2 (elapsed 2 ≥ timeout 1) is invoked. -/
theorem breaker_state_invariants_witness :
    (1 : Nat) ≤ (CircuitBreaker.mk 1 1 1 (some 0) .Open).failure_count
    ∧ (((CircuitBreaker.mk 1 1 1 (some 0) .Open).call 2
        (Except.ok 7 : Except String Nat)).invoked = true
        ∧ ∃ v, (Except.ok 7 : Except String Nat) = .ok v)
    ∧ ((CircuitBreaker.mk 1 1 1 (some 0) .Open).call 2
        (Except.error "x" : Except String Nat)).invoked = true := by
  have h := breaker_state_invariants 1 1
    [((0 : ℚ), (Except.error "boom" : Except String Nat))]
    (CircuitBreaker.mk 1 1 1 (some 0) .Open) (by decide)
  exact ⟨h.1 rfl,
    h.2.1 2 (Except.ok 7)
      (by simp [CircuitBreaker.call, CircuitBreaker.gate,
        CircuitBreaker.should_attempt_reset, CircuitBreaker.on_success])
      (by decide),
    h.2.2 2 0 (Except.error "x") rfl rfl (by norm_num)⟩

/-! ## Helper lemmas about the retry loop -/

theorem RetryPolicy.go_all_fail (p : RetryPolicy)
    (op : Nat → Unit → Unit × Except ε α) (jit : Nat → ℚ) (errs : Nat → ε)
    (hop : ∀ a, op a () = ((), .error (errs a))) :
    ∀ (fuel a : Nat) (last : Option ε),
      (p.go op jit a (fuel + 1) last ()).result
          = .error (.opErr (errs (a + fuel)))
      ∧ (p.go op jit a (fuel + 1) last ()).invocations = fuel + 1 := by
  intro fuel
  induction fuel with
  | zero =>
    intro a last
    unfold RetryPolicy.go
    rw [hop a]
    unfold RetryPolicy.go
    simp [raiseLast]
  | succ n ih =>
    intro a last
    have h := ih (a + 1) (some (errs a))
    unfold RetryPolicy.go
    rw [hop a]
    simp only
    refine ⟨?_, ?_⟩
    · rw [h.1]
      have : a + 1 + n = a + (n + 1) := by omega
      rw [this]
    · rw [h.2]

/-- Claim C2: with `max_attempts = n ≥ 1` and an operation that fails on
every invocation, `execute_with_retry` invokes the operation exactly `n`
times and then raises exactly the error of the `n`-th (last) invocation,
with no wrapping or aggregation of the earlier errors. -/
theorem retry_exhausts_attempts_and_raises_last_error (p : RetryPolicy)
    (op : Nat → Unit → Unit × Except ε α) (jit : Nat → ℚ) (errs : Nat → ε)
    (hn : 1 ≤ p.max_attempts) (hop : ∀ a, op a () = ((), .error (errs a))) :
    (p.execute_with_retry op jit ()).invocations = p.max_attempts.toNat
    ∧ (p.execute_with_retry op jit ()).result
        = .error (.opErr (errs p.max_attempts.toNat)) := by
  obtain ⟨n, hn2⟩ : ∃ n, p.max_attempts.toNat = n + 1 :=
    ⟨p.max_attempts.toNat - 1, by omega⟩
  unfold RetryPolicy.execute_with_retry
  rw [hn2]
  have h := RetryPolicy.go_all_fail p op jit errs hop n 1 none
  refine ⟨h.2, ?_⟩
  rw [h.1]
  have : 1 + n = n + 1 := by omega
  rw [this]

/-- Witness for C2: the spec default policy `(3, 0.1, 10)` against an
operation whose attempt `a` fails with error `a`: exactly 3 invocations,
and the raised error is the error 3 of the 3rd attempt. -/
theorem retry_exhausts_attempts_and_raises_last_error_witness :
    ((RetryPolicy.mk 3 (1/10) 10).execute_with_retry
        (fun a (_ : Unit) => ((), (Except.error a : Except Nat Nat)))
        (fun _ => 0) ()).invocations = (3 : Int).toNat
    ∧ ((RetryPolicy.mk 3 (1/10) 10).execute_with_retry
        (fun a (_ : Unit) => ((), (Except.error a : Except Nat Nat)))
        (fun _ => 0) ()).result = .error (.opErr ((3 : Int).toNat)) :=
  retry_exhausts_attempts_and_raises_last_error (RetryPolicy.mk 3 (1/10) 10)
    (fun a _ => ((), Except.error a)) (fun _ => 0) (fun a => a)
    (by decide) (fun a => rfl)

/-- Claim C10: constructed with `max_attempts < 1`, the retry loop body
never runs: the operation is invoked zero times and the final
`raise last_exception` re-raises the sentinel `None`, a `TypeError` that is
not the error of any attempt. -/
theorem retry_nonpositive_attempts_raises_none (p : RetryPolicy)
    (op : Nat → σ → σ × Except ε α) (jit : Nat → ℚ) (s : σ)
    (hm : p.max_attempts < 1) :
    (p.execute_with_retry op jit s).invocations = 0
    ∧ (p.execute_with_retry op jit s).result = .error .raisedNone
    ∧ ∀ e : ε, (RetryErr.raisedNone : RetryErr ε) ≠ .opErr e := by
  have h0 : p.max_attempts.toNat = 0 := by omega
  unfold RetryPolicy.execute_with_retry
  rw [h0]
  exact ⟨rfl, rfl, fun e h => by cases h⟩

/-- Witness for C10: `max_attempts = 0` gives zero invocations and the
re-raised `None` sentinel. -/
theorem retry_nonpositive_attempts_raises_none_witness :
    ((RetryPolicy.mk 0 1 1).execute_with_retry
        (fun a (_ : Unit) => ((), (Except.error a : Except Nat Nat)))
        (fun _ => 0) ()).invocations = 0
    ∧ ((RetryPolicy.mk 0 1 1).execute_with_retry
        (fun a (_ : Unit) => ((), (Except.error a : Except Nat Nat)))
        (fun _ => 0) ()).result = .error .raisedNone
    ∧ ∀ e : Nat, (RetryErr.raisedNone : RetryErr Nat) ≠ .opErr e :=
  retry_nonpositive_attempts_raises_none (RetryPolicy.mk 0 1 1)
    (fun a _ => ((), Except.error a)) (fun _ => 0) () (by decide)

/-- Claim C7: the backoff for attempt `a` is the exponential delay capped
at `max_delay` and then multiplied by the jitter `0.5 + r` with
`r ∈ [0, 1)`, so (for positive delays) it lies in
`[0.5 * min(base * 2^(a-1), max), 1.5 * min(base * 2^(a-1), max))` — the
jitter is applied after the cap, so the result may exceed `max_delay`. -/
theorem backoff_is_capped_then_jittered (p : RetryPolicy) (attempt : Nat)
    (r : ℚ) (hr0 : 0 ≤ r) (hr1 : r < 1)
    (hbase : 0 < p.base_delay) (hmax : 0 < p.max_delay) :
    p.calculate_backoff attempt r
        = min (p.base_delay * 2 ^ (attempt - 1)) p.max_delay * (1/2 + r)
    ∧ min (p.base_delay * 2 ^ (attempt - 1)) p.max_delay * (1/2)
        ≤ p.calculate_backoff attempt r
    ∧ p.calculate_backoff attempt r
        < min (p.base_delay * 2 ^ (attempt - 1)) p.max_delay * (3/2) := by
  have hmpos : 0 < min (p.base_delay * 2 ^ (attempt - 1)) p.max_delay :=
    lt_min (by positivity) hmax
  unfold RetryPolicy.calculate_backoff
  refine ⟨rfl, ?_, ?_⟩
  · exact mul_le_mul_of_nonneg_left (by linarith) (le_of_lt hmpos)
  · exact mul_lt_mul_of_pos_left (by linarith) hmpos

/-- Witness for C7: default policy `(3, 0.1, 10)`, attempt 1, jitter draw
`r = 1/4`: the delay is `1/10 * 3/4 = 3/40`, within the stated band. -/
theorem backoff_is_capped_then_jittered_witness :
    (RetryPolicy.mk 3 (1/10) 10).calculate_backoff 1 (1/4)
        = min ((1/10 : ℚ) * 2 ^ (1 - 1)) 10 * (1/2 + 1/4)
    ∧ min ((1/10 : ℚ) * 2 ^ (1 - 1)) 10 * (1/2)
        ≤ (RetryPolicy.mk 3 (1/10) 10).calculate_backoff 1 (1/4)
    ∧ (RetryPolicy.mk 3 (1/10) 10).calculate_backoff 1 (1/4)
        < min ((1/10 : ℚ) * 2 ^ (1 - 1)) 10 * (3/2) :=
  backoff_is_capped_then_jittered (RetryPolicy.mk 3 (1/10) 10) 1 (1/4)
    (by norm_num) (by norm_num) (by norm_num) (by norm_num)

/-- Claim C8: inside one `execute_with_resilience` call the breaker state
is threaded through the retry attempts; from any point where the breaker is
Open and every remaining attempt happens before the recovery timeout
elapses, all remaining attempts are consumed, each rejected fast via the
circuit-open error, the underlying operation is never invoked again
(`final = (cb, k)` keeps the invocation counter at `k`), and the loop's
terminal error is the circuit-open rejection of the last attempt. -/
theorem open_breaker_consumes_remaining_attempts (p : RetryPolicy)
    (uop : Nat → Except ε α) (jit times : Nat → ℚ) (cb : CircuitBreaker)
    (k : Nat) (t0 : ℚ) (hs : cb.state = .Open)
    (ht : cb.last_failure_time = some t0) :
    ∀ (fuel a : Nat) (last : Option (Err ε)),
      (∀ i, a ≤ i → i < a + fuel → times i - t0 < cb.recovery_timeout) →
      1 ≤ fuel →
      (p.go (breaker_op uop times) jit a fuel last (cb, k)).result
          = .error (.opErr .circuitOpen)
      ∧ (p.go (breaker_op uop times) jit a fuel last (cb, k)).invocations = fuel
      ∧ (p.go (breaker_op uop times) jit a fuel last (cb, k)).final = (cb, k) := by
  intro fuel
  induction fuel with
  | zero =>
    intro a last hfuel h1
    exact absurd h1 (by norm_num)
  | succ n ih =>
    intro a last htimes h1
    have hrej := CircuitBreaker.call_rejects cb (times a) t0 (uop k) hs ht
      (htimes a le_rfl (by omega))
    have hbop : breaker_op uop times a (cb, k) = ((cb, k), .error .circuitOpen) := by
      unfold breaker_op
      rw [hrej]
      simp
    unfold RetryPolicy.go
    rw [hbop]
    simp only
    cases n with
    | zero =>
      unfold RetryPolicy.go
      exact ⟨rfl, rfl, rfl⟩
    | succ m =>
      have h := ih (a + 1) (some .circuitOpen)
        (fun i hi1 hi2 => htimes i (by omega) (by omega)) (by omega)
      exact ⟨h.1, by rw [h.2.1], h.2.2⟩

/-- Witness for C8: retry policy with 3 attempts over a breaker already
Open (threshold 1, timeout 100, failure at time 0), all attempts at time 0:
all 3 attempts are consumed as fast circuit-open rejections, the underlying
operation is never invoked, and the terminal error is the circuit-open
rejection. -/
theorem open_breaker_consumes_remaining_attempts_witness :
    ((RetryPolicy.mk 3 (1/10) 10).go
        (breaker_op (fun _ => (Except.error "net" : Except String Nat))
          (fun _ => 0)) (fun _ => 0) 1 3 none
        (CircuitBreaker.mk 1 100 1 (some 0) .Open, 0)).result
        = .error (.opErr .circuitOpen)
    ∧ ((RetryPolicy.mk 3 (1/10) 10).go
        (breaker_op (fun _ => (Except.error "net" : Except String Nat))
          (fun _ => 0)) (fun _ => 0) 1 3 none
        (CircuitBreaker.mk 1 100 1 (some 0) .Open, 0)).invocations = 3
    ∧ ((RetryPolicy.mk 3 (1/10) 10).go
        (breaker_op (fun _ => (Except.error "net" : Except String Nat))
          (fun _ => 0)) (fun _ => 0) 1 3 none
        (CircuitBreaker.mk 1 100 1 (some 0) .Open, 0)).final
        = (CircuitBreaker.mk 1 100 1 (some 0) .Open, 0) :=
  open_breaker_consumes_remaining_attempts (RetryPolicy.mk 3 (1/10) 10)
    (fun _ => Except.error "net") (fun _ => 0) (fun _ => 0)
    (CircuitBreaker.mk 1 100 1 (some 0) .Open) 0 0 rfl rfl 3 1 none
    (fun i _ _ => by norm_num) (by norm_num)

/-- Claim C6: when the breaker-wrapped retry sequence inside
`execute_with_resilience` terminates with an error, exactly one
`FailureRecord` is appended to the failure history and the caller receives
that terminal error itself — the bookkeeping (history append, health probe,
auto-heal) neither masks nor replaces it; when the retry sequence succeeds,
no record is appended and the result is returned unchanged. -/
theorem resilience_failure_bookkeeping (rs : ResilientSystem)
    (uop : Nat → Except ε α) (estr : ε → String) (jit times : Nat → ℚ)
    (tEnd : ℚ) :
    (∀ err, (rs.retry_policy.execute_with_retry (breaker_op uop times) jit
          (rs.circuit_breaker, 0)).result = .error err →
        (rs.execute_with_resilience uop estr jit times tEnd).result = .error err
        ∧ (rs.execute_with_resilience uop estr jit times
            tEnd).system.failure_history
          = rs.failure_history ++ [⟨tEnd, err.msg (Err.msg estr)⟩])
    ∧ (∀ v, (rs.retry_policy.execute_with_retry (breaker_op uop times) jit
          (rs.circuit_breaker, 0)).result = .ok v →
        (rs.execute_with_resilience uop estr jit times tEnd).result = .ok v
        ∧ (rs.execute_with_resilience uop estr jit times
            tEnd).system.failure_history
          = rs.failure_history) := by
  constructor
  · intro err herr
    unfold ResilientSystem.execute_with_resilience
    simp only [herr]
    exact ⟨trivial, trivial⟩
  · intro v hv
    unfold ResilientSystem.execute_with_resilience
    simp only [hv]
    exact ⟨trivial, trivial⟩

/-- Witness for C6: the spec's scenario — default system (breaker threshold
5, 3 retry attempts) around an operation that always fails with
"net error"; the terminal error is the third attempt's "net error"
unchanged and exactly one record with that message is appended to the
(empty) history. -/
theorem resilience_failure_bookkeeping_witness :
    (ResilientSystem.mkInit.execute_with_resilience
        (fun _ => (Except.error "net error" : Except String Nat)) id
        (fun _ => 0) (fun _ => 0) 5).result
        = .error (.opErr (.op "net error"))
    ∧ (ResilientSystem.mkInit.execute_with_resilience
        (fun _ => (Except.error "net error" : Except String Nat)) id
        (fun _ => 0) (fun _ => 0) 5).system.failure_history
        = ResilientSystem.mkInit.failure_history ++ [⟨5, "net error"⟩] :=
  (resilience_failure_bookkeeping ResilientSystem.mkInit
      (fun _ => Except.error "net error") id (fun _ => 0) (fun _ => 0) 5).1
    (.opErr (.op "net error")) (by decide)

/-- Counterexample for C9: the breaker rejects with a plain
`Exception("Circuit breaker OPEN")`, not a distinct error type.  An
operation that itself fails with the message "Circuit breaker OPEN" is
propagated with the identical observable class-and-message, so a caller
cannot distinguish "operation never attempted" (first call, `invoked =
false`) from "operation attempted and failed" (second call, `invoked =
true`) by looking at the surfaced error. -/
theorem circuit_open_error_indistinguishable_by_message :
    ((CircuitBreaker.mk 1 10 1 (some 0) .Open).call 5
        (Except.error "ignored" : Except String Nat)).result
        = .error .circuitOpen
    ∧ ((CircuitBreaker.mk 1 10 1 (some 0) .Open).call 5
        (Except.error "ignored" : Except String Nat)).invoked = false
    ∧ ((CircuitBreaker.mk 5 10 0 none .Closed).call 5
        (Except.error "Circuit breaker OPEN" : Except String Nat)).result
        = .error (.op "Circuit breaker OPEN")
    ∧ ((CircuitBreaker.mk 5 10 0 none .Closed).call 5
        (Except.error "Circuit breaker OPEN" : Except String Nat)).invoked
        = true
    ∧ Err.msg id (Err.op "Circuit breaker OPEN") = Err.msg id .circuitOpen := by
  have h := CircuitBreaker.call_rejects (CircuitBreaker.mk 1 10 1 (some 0) .Open)
    5 0 (Except.error "ignored" : Except String Nat) rfl rfl (by norm_num)
  rw [h]
  exact ⟨rfl, rfl, rfl, rfl, rfl⟩

/-- Claim C9 (amended): on a rejected call the breaker synthesizes its own
circuit-open error without invoking the operation — as a raise site it is
disjoint from the propagation of an operation error — but both are plain
`Exception` values whose only observable difference is the message
`str(e)`, so the caller can tell "never attempted" from "attempted and
failed" exactly when the operation's error message differs from
"Circuit breaker OPEN". -/
theorem circuit_open_error_taxonomy (cb : CircuitBreaker) (now t0 : ℚ)
    (o : Except ε α) (estr : ε → String) (hs : cb.state = .Open)
    (ht : cb.last_failure_time = some t0)
    (he : now - t0 < cb.recovery_timeout) :
    (cb.call now o).result = .error .circuitOpen
    ∧ (cb.call now o).invoked = false
    ∧ (∀ e : ε, (Err.circuitOpen : Err ε) ≠ .op e)
    ∧ (∀ e : ε, Err.msg estr (.op e) = Err.msg estr .circuitOpen ↔
        estr e = "Circuit breaker OPEN") := by
  have h := CircuitBreaker.call_rejects cb now t0 o hs ht he
  rw [h]
  refine ⟨rfl, rfl, ?_, ?_⟩
  · intro e hc
    cases hc
  · intro e
    exact Iff.rfl

/-- Witness for C9 (amended): concrete open breaker, `estr = id`; the
rejection error is the circuit-open one, never a propagated `.op` error,
and its message coincides with an operation error's message exactly when
that message is "Circuit breaker OPEN". -/
theorem circuit_open_error_taxonomy_witness :
    ((CircuitBreaker.mk 1 10 1 (some 0) .Open).call 5
        (Except.error "boom" : Except String Nat)).result
        = .error .circuitOpen
    ∧ ((CircuitBreaker.mk 1 10 1 (some 0) .Open).call 5
        (Except.error "boom" : Except String Nat)).invoked = false
    ∧ (Err.circuitOpen : Err String) ≠ .op "boom"
    ∧ (Err.msg id (.op "boom") = Err.msg id .circuitOpen ↔
        "boom" = "Circuit breaker OPEN") := by
  have h := circuit_open_error_taxonomy (CircuitBreaker.mk 1 10 1 (some 0) .Open)
    5 0 (Except.error "boom" : Except String Nat) id rfl rfl (by norm_num)
  exact ⟨h.1, h.2.1, h.2.2.1 "boom", h.2.2.2 "boom"⟩

end Resilient
